import Mathlib

/-
  Verification development for the CV-Screening pipeline (src/app.py).

  Shallow embedding. External effects are modelled by explicit data:
  the PDF parser (PyMuPDF) by an optional page list carried by the
  uploaded file, the Groq chat call together with the JSON decoding of
  its response by an `AnalysisOutcome` value carried per document, and
  the reportlab story by a list of `StoryElem` values. All pure text
  processing (the two regular expressions of the fallback extractor,
  string truncation, the report cell construction, the batch loop) is
  translated directly from the source.
-/

/-- JSON-style values held in a candidate dictionary: the source keeps
Python strings, numbers and lists of strings in the record. -/
inductive Value where
  | str (s : String)
  | int (n : Int)
  | list (l : List String)
deriving DecidableEq, Repr

/-- A candidate record is a Python dict from field name to value,
modelled as an association list in insertion order. -/
abbrev CandidateRecord := List (String × Value)

/-- Python dict.get with a default value. -/
def pyGet (c : CandidateRecord) (k : String) (default : Value) : Value :=
  (c.lookup k).getD default

/-- Character class of the Python regex word character, ASCII range:
letters, digits and the underscore. -/
def isWordChar (c : Char) : Bool := c.isAlphanum || c == '_'

/-- Class [A-Za-z0-9._%+-] of the email pattern local part. -/
def isLocalChar (c : Char) : Bool :=
  c.isAlphanum || c == '.' || c == '_' || c == '%' || c == '+' || c == '-'

/-- Class [A-Za-z0-9.-] of the email pattern domain part. -/
def isDomainChar (c : Char) : Bool := c.isAlphanum || c == '.' || c == '-'

/-- Class [A-Z|a-z] of the email pattern top-level-domain part; note the
literal bar character is inside the class in the source pattern. -/
def isTldChar (c : Char) : Bool := c.isAlpha || c == '|'

/-- Word-ness of an optional character; the ends of the text count as
non-word for the boundary assertion. -/
def isWordOpt : Option Char → Bool
  | none => false
  | some c => isWordChar c

/-- The boundary assertion of the regex between two adjacent positions:
exactly one side is a word character. -/
def wordB (x y : Option Char) : Bool := isWordOpt x != isWordOpt y

/-- Class [1-9] used by the phone pattern. -/
def isNonZeroDigit (c : Char) : Bool := '1' ≤ c && c ≤ '9'

/-- Head of a character list is a nonzero digit. -/
def headNonZero : List Char → Bool
  | [] => false
  | c :: _ => isNonZeroDigit c

/-- Matching [1-9]?[0-9]\x7b7,15\x7d at the start of s with the leftmost
greedy backtracking semantics of re.search: when the digit run starting
at s begins with [1-9] and at least 7 more digits follow, the optional
[1-9] participates and the bounded run takes up to 15 further digits;
otherwise the optional class matches empty and the bounded run itself
takes 7 to 15 digits greedily. -/
def tryDigits (s : List Char) : Option (List Char) :=
  let run := s.takeWhile Char.isDigit
  if headNonZero run ∧ 8 ≤ run.length then some (run.take 16)
  else if 7 ≤ run.length then some (run.take 15)
  else none

/-- Matching the full phone pattern [\+]?[1-9]?[0-9]\x7b7,15\x7d at the
start of s: an optional leading plus sign, then the digit part. When the
plus sign is present but no digit part follows, the attempt without the
plus sign also fails, since the plus sign is neither in [1-9] nor in
[0-9]; so the position fails altogether, exactly as in the source. -/
def tryPhone (s : List Char) : Option (List Char) :=
  if s.head? = some '+' then
    match tryDigits s.tail with
    | some d => some ('+' :: d)
    | none => none
  else tryDigits s

/-- re.search for the phone pattern of create_fallback_analysis
(src/app.py line 88): scan start positions left to right and return the
match at the first position that matches. -/
def re_search_phone : List Char → Option (List Char)
  | [] => none
  | c :: rest =>
    match tryPhone (c :: rest) with
    | some m => some m
    | none => re_search_phone rest

/-- Backtracking over the length of the [A-Z|a-z]\x7b2,\x7d part of the
email pattern followed by the final boundary assertion: lc counts down
from the full top-level-domain run; a length below two fails. cRun is
the run of class characters after the dot, r3 the whole text there. -/
def tryTldLen : Nat → List Char → List Char → Option (List Char)
  | 0, _, _ => none
  | 1, _, _ => none
  | (k + 2), cRun, r3 =>
    if wordB ((cRun.take (k + 2)).getLast?) ((r3.drop (k + 2)).head?) then
      some (cRun.take (k + 2))
    else tryTldLen (k + 1) cRun r3

/-- Matching [A-Z|a-z]\x7b2,\x7d\b against the text r3 after the dot. -/
def tryTld (r3 : List Char) : Option (List Char) :=
  tryTldLen (r3.takeWhile isTldChar).length (r3.takeWhile isTldChar) r3

/-- Backtracking over the length of the [A-Za-z0-9.-]+ domain part: lb
counts down from the full domain run; after lb consumed characters a
literal dot must follow, then the top-level-domain part. -/
def tryDomLen : Nat → List Char → Option (List Char)
  | 0, _ => none
  | (k + 1), r2 =>
    match r2.drop (k + 1) with
    | '.' :: r3 =>
      (match tryTld r3 with
       | some tld => some (r2.take (k + 1) ++ '.' :: tld)
       | none => tryDomLen k r2)
    | _ => tryDomLen k r2

/-- Matching [A-Za-z0-9.-]+\.[A-Z|a-z]\x7b2,\x7d\b against the text r2
after the at sign, greedy with backtracking. -/
def tryDomain (r2 : List Char) : Option (List Char) :=
  tryDomLen (r2.takeWhile isDomainChar).length r2

/-- Matching the full email pattern of create_fallback_analysis
(src/app.py line 87) at one start position. prev is the character before
the position, for the leading boundary assertion. The local part
[A-Za-z0-9._%+-]+ is necessarily the maximal run of its class, because
the at sign that must follow it is not in the class, so no shorter
backtracking length can succeed. -/
def findEmailAt : Option Char → List Char → Option (List Char)
  | _, [] => none
  | prev, c :: rest =>
    let la := (c :: rest).takeWhile isLocalChar
    if la.isEmpty then none
    else if wordB prev (some c) then
      match (c :: rest).drop la.length with
      | d :: r2 =>
        if d = '@' then
          match tryDomain r2 with
          | some dm => some (la ++ '@' :: dm)
          | none => none
        else none
      | [] => none
    else none

/-- Scan of re.search for the email pattern: start positions left to
right, remembering the previous character for the boundary assertion. -/
def re_search_email_aux : Option Char → List Char → Option (List Char)
  | _, [] => none
  | prev, c :: rest =>
    match findEmailAt prev (c :: rest) with
    | some m => some m
    | none => re_search_email_aux (some c) rest

/-- re.search for the email pattern of create_fallback_analysis. -/
def re_search_email (cs : List Char) : Option (List Char) :=
  re_search_email_aux none cs

/-- create_fallback_analysis (src/app.py lines 84-105): regex search for
an email and a phone token over the raw text, every other field a fixed
placeholder; the name field carries the supplied name hint. -/
def create_fallback_analysis (cv_text : String) (candidate_name : String) :
    CandidateRecord :=
  [("name", .str candidate_name),
   ("email", .str (match re_search_email cv_text.toList with
     | some m => String.mk m
     | none => "Not found")),
   ("phone", .str (match re_search_phone cv_text.toList with
     | some m => String.mk m
     | none => "Not found")),
   ("location", .str "Not extracted"),
   ("experience_years", .str "Not determined"),
   ("current_role", .str "Not extracted"),
   ("industry", .str "Not determined"),
   ("education", .str "Not extracted"),
   ("key_skills", .list ["Analysis failed - manual review required"]),
   ("previous_companies", .list ["Not extracted"]),
   ("summary", .str "Automatic analysis failed. Manual review required.")]

/-- Outcome of the external Groq call together with the JSON decoding of
the response body for one document: the call raises (network, auth,
rate-limit), or a body arrives that json.loads rejects, or a parsed
record arrives. -/
inductive AnalysisOutcome where
  | apiError
  | badJson (body : String)
  | ok (r : CandidateRecord)
deriving DecidableEq, Repr

/-- The prompt embeds only the first 4000 characters of the extracted
text, cv_text[:4000] in src/app.py line 58. -/
def transmitted_excerpt (cv_text : String) : List Char :=
  cv_text.toList.take 4000

/-- analyze_cv_with_groq (src/app.py lines 35-82): on a parsed response
the parsed record is returned; on a JSONDecodeError or on any exception
from the call the function returns create_fallback_analysis applied to
the full untruncated text and the name hint. -/
def analyze_cv_with_groq (outcome : AnalysisOutcome) (cv_text : String)
    (candidate_name : String) : CandidateRecord :=
  match outcome with
  | .ok r => r
  | .badJson _ => create_fallback_analysis cv_text candidate_name
  | .apiError => create_fallback_analysis cv_text candidate_name

/-- Python str() on a record value: a string verbatim, an integer in
decimal with a leading minus for negatives, a list in bracket notation.
Only its digit test and its use on string and integer cells matter to
the report; for a list the first character is an opening bracket, so the
digit test below is false on lists. -/
def pyStr : Value → String
  | .str s => s
  | .int n => toString n
  | .list l =>
    "[" ++ String.intercalate ", " (l.map (fun s => "\x27" ++ s ++ "\x27")) ++ "]"

/-- Python str.isdigit on ASCII text: nonempty and every character a
digit. -/
def pyIsDigit (s : String) : Bool := !s.isEmpty && s.toList.all Char.isDigit

/-- Python truthiness of a record value. -/
def pyTruthy : Value → Bool
  | .str s => !s.isEmpty
  | .int n => decide (n ≠ 0)
  | .list l => !l.isEmpty

/-- Python sep.join applied to a record value: a list joins its
elements; a string joins its characters. The integer case raises in
Python and is unreachable from the report claims, which assume
list-valued skill fields. -/
def pyJoin (sep : String) : Value → String
  | .list l => String.intercalate sep l
  | .str s => String.intercalate sep (s.toList.map (fun c => String.mk [c]))
  | .int _ => ""

/-- The Experience cell of the details table (src/app.py line 162): the
value with a year suffix when str() of the value passes isdigit, with
dict default the empty string in the test and the string N/A in the
rendering; otherwise the raw value verbatim. -/
def experience_cell (candidate : CandidateRecord) : Value :=
  if pyIsDigit (pyStr (pyGet candidate "experience_years" (.str ""))) then
    .str (pyStr (pyGet candidate "experience_years" (.str "N/A")) ++ " years")
  else pyGet candidate "experience_years" (.str "N/A")

/-- The Key Skills cell (src/app.py line 166): comma-join of the value
when the key is present and truthy, otherwise the string N/A. -/
def key_skills_cell (candidate : CandidateRecord) : Value :=
  match candidate.lookup "key_skills" with
  | some v => if pyTruthy v then .str (pyJoin ", " v) else .str "N/A"
  | none => .str "N/A"

/-- The Previous Companies cell (src/app.py line 167), same shape as the
Key Skills cell. -/
def previous_companies_cell (candidate : CandidateRecord) : Value :=
  match candidate.lookup "previous_companies" with
  | some v => if pyTruthy v then .str (pyJoin ", " v) else .str "N/A"
  | none => .str "N/A"

/-- The details rows of one candidate (src/app.py lines 156-168): a
header row and ten field rows; the summary field has no row and is
rendered as a separate paragraph by candidate_section. -/
def candidate_details (candidate : CandidateRecord) : List (List Value) :=
  [[.str "Field", .str "Information"],
   [.str "Name", pyGet candidate "name" (.str "N/A")],
   [.str "Email", pyGet candidate "email" (.str "N/A")],
   [.str "Phone", pyGet candidate "phone" (.str "N/A")],
   [.str "Location", pyGet candidate "location" (.str "N/A")],
   [.str "Experience", experience_cell candidate],
   [.str "Current Role", pyGet candidate "current_role" (.str "N/A")],
   [.str "Industry", pyGet candidate "industry" (.str "N/A")],
   [.str "Education", pyGet candidate "education" (.str "N/A")],
   [.str "Key Skills", key_skills_cell candidate],
   [.str "Previous Companies", previous_companies_cell candidate]]

/-- Paragraph styles used by the story: the title style, the candidate
heading style and the normal style. -/
inductive Style where
  | title
  | heading
  | normal
deriving DecidableEq, Repr

/-- One flowable of the reportlab story: a styled paragraph, a spacer,
or a table of value cells. Byte rendering of the story is the external
document library and is not modelled. -/
inductive StoryElem where
  | para (style : Style) (text : String)
  | spacer
  | table (rows : List (List Value))
deriving DecidableEq, Repr

/-- The per-candidate block appended by one iteration of the report loop
(src/app.py lines 150-191): heading with position and display name, the
details table, a spacer, the professional summary paragraph, a spacer. -/
def candidate_section (i : Nat) (candidate : CandidateRecord) : List StoryElem :=
  [.para .heading
     ("Candidate " ++ toString i ++ ": " ++
       pyStr (pyGet candidate "name" (.str "Unknown"))),
   .table (candidate_details candidate),
   .spacer,
   .para .normal
     ("<b>Professional Summary:</b><br/>" ++
       pyStr (pyGet candidate "summary" (.str "No summary available"))),
   .spacer]

/-- The report loop over enumerate(candidates_data, 1). -/
def build_sections : Nat → List CandidateRecord → List StoryElem
  | _, [] => []
  | i, c :: rest => candidate_section i c ++ build_sections (i + 1) rest

/-- create_pdf_report (src/app.py lines 107-196) as the story it builds:
title, spacer, the run summary paragraph with candidate count and the
generation timestamp now, spacer, then the per-candidate sections in
batch order. -/
def report_story (now : String) (candidates_data : List CandidateRecord) :
    List StoryElem :=
  [.para .title "CV Screening Report",
   .spacer,
   .para .normal
     ("<b>Total Candidates Analyzed:</b> " ++ toString candidates_data.length ++
       "<br/>" ++ "<b>Report Generated:</b> " ++ now ++ "<br/>"),
   .spacer] ++ build_sections 1 candidates_data

/-- The texts of the heading-styled paragraphs of a story, in order. -/
def section_headers (story : List StoryElem) : List String :=
  story.filterMap fun e =>
    match e with
    | .para .heading t => some t
    | _ => none

/-- An uploaded document, with the result of the external PDF parse
carried as data: the page texts in page order, or none when the parser
raises; and the outcome of the analysis call for this document. -/
structure UploadedFile where
  name : String
  parsed : Option (List String)
  outcome : AnalysisOutcome
deriving Repr

/-- extract_text_from_pdf (src/app.py lines 17-33): concatenate the page
texts in page order into one string with no separator; on a parser
exception report and return the empty string. A parsed document with
zero pages yields the empty string. -/
def extract_text_from_pdf (f : UploadedFile) : String :=
  match f.parsed with
  | some pages => pages.foldl (fun text page => text ++ page) ""
  | none => ""

/-- ASCII model of Python str.title, used on the file name: a letter
following a letter is lowered, any other letter is raised. -/
def pyTitleAux : Bool → List Char → List Char
  | _, [] => []
  | prevAlpha, c :: rest =>
    if c.isAlpha then
      (if prevAlpha then c.toLower else c.toUpper) :: pyTitleAux true rest
    else c :: pyTitleAux false rest

/-- Python str.title on a string. -/
def pyTitle (s : String) : String := String.mk (pyTitleAux false s.toList)

/-- The name hint taken from the file name (src/app.py line 251):
remove .pdf, replace underscores with spaces, title-case. -/
def derive_candidate_name (filename : String) : String :=
  pyTitle ((filename.replace ".pdf" "").replace "_" " ")

/-- The record the pipeline produces for one document that yielded
text. -/
def record_of (f : UploadedFile) : CandidateRecord :=
  analyze_cv_with_groq f.outcome (extract_text_from_pdf f)
    (derive_candidate_name f.name)

/-- The batch loop of main (src/app.py lines 243-258): per uploaded file
extract the text; when the text is nonempty analyze and append the
record, otherwise append nothing. -/
def main_batch (files : List UploadedFile) : List CandidateRecord :=
  files.foldl
    (fun acc f =>
      let cv_text := extract_text_from_pdf f
      if cv_text ≠ "" then
        acc ++ [analyze_cv_with_groq f.outcome cv_text
          (derive_candidate_name f.name)]
      else acc)
    []

/-- The eleven field names of a candidate record. -/
def eleven_fields : List String :=
  ["name", "email", "phone", "location", "experience_years", "current_role",
   "industry", "education", "key_skills", "previous_companies", "summary"]

/-- Recursive page-order concatenation, the shape the specification
describes for the Text Extractor. -/
def page_order_concat : List String → String
  | [] => ""
  | p :: ps => p ++ page_order_concat ps

/-- A value is a plain integer, the reading of the claim for the
experience cell. -/
def is_plain_int : Value → Bool
  | .int _ => true
  | _ => false

/-- The labels of a details table: the first cell of every row. -/
def table_labels (rows : List (List Value)) : List Value :=
  rows.filterMap List.head?

/-- The fixed placeholder markers the Fallback Extractor uses. -/
def placeholder_markers : List String :=
  ["Not found", "Not extracted", "Not determined",
   "Analysis failed - manual review required",
   "Automatic analysis failed. Manual review required."]

/-- The heading text of one candidate section. -/
def header_text (i : Nat) (candidate : CandidateRecord) : String :=
  "Candidate " ++ toString i ++ ": " ++
    pyStr (pyGet candidate "name" (.str "Unknown"))

/-- The heading texts of the sections from position k on. -/
def headers_from : Nat → List CandidateRecord → List String
  | _, [] => []
  | k, c :: rest => header_text k c :: headers_from (k + 1) rest

/-- A run of 7 to 15 digit characters. -/
def digitsOK (ds : List Char) : Prop :=
  (∀ c ∈ ds, c.isDigit) ∧ 7 ≤ ds.length ∧ ds.length ≤ 15

/-- The loose digit-run shape the specification names for the phone
token: a run of 7 to 15 digits with an optional leading country-code
marker, the marker being a plus sign, a nonzero country digit, or
both. -/
def phoneShape (m : List Char) : Prop :=
  (∃ ds, digitsOK ds ∧ m = ds) ∨
  (∃ c ds, isNonZeroDigit c ∧ digitsOK ds ∧ m = c :: ds) ∨
  (∃ ds, digitsOK ds ∧ m = '+' :: ds) ∨
  (∃ c ds, isNonZeroDigit c ∧ digitsOK ds ∧ m = '+' :: c :: ds)

/-- A concrete text whose first phone-shaped and email-shaped substrings
both lie beyond position 4000. -/
def c10_text : String :=
  String.mk (List.replicate 4001 ' ' ++
    "tel 1234567 mail j.doe@example.com".toList)

lemma foldl_append_eq_concat (ps : List String) (acc : String) :
    ps.foldl (fun text page => text ++ page) acc = acc ++ page_order_concat ps := by
  induction ps generalizing acc with
  | nil => simp [page_order_concat]
  | cons p ps ih => simp [page_order_concat, ih, String.append_assoc]

lemma fallback_lookup_email (t n : String) :
    (create_fallback_analysis t n).lookup "email" =
      some (.str (match re_search_email t.toList with
        | some m => String.mk m
        | none => "Not found")) := rfl

lemma fallback_lookup_phone (t n : String) :
    (create_fallback_analysis t n).lookup "phone" =
      some (.str (match re_search_phone t.toList with
        | some m => String.mk m
        | none => "Not found")) := rfl

/-- C1: whenever the analysis call raises or its response body fails to
parse as JSON, analyze_cv_with_groq returns exactly the record of
create_fallback_analysis on the same text and name hint. -/
theorem claim_c1_analyzer_fallback_equivalence
    (outcome : AnalysisOutcome) (cv_text candidate_name : String)
    (h : outcome = .apiError ∨ ∃ body, outcome = .badJson body) :
    analyze_cv_with_groq outcome cv_text candidate_name =
      create_fallback_analysis cv_text candidate_name := by
  rcases h with h | ⟨body, h⟩ <;> subst h <;> rfl

theorem claim_c1_witness :
    (AnalysisOutcome.apiError = .apiError ∨
      ∃ body, AnalysisOutcome.apiError = .badJson body) ∧
    analyze_cv_with_groq .apiError "some text" "Jane" =
      create_fallback_analysis "some text" "Jane" ∧
    analyze_cv_with_groq (.badJson "not json") "some text" "Jane" =
      create_fallback_analysis "some text" "Jane" :=
  ⟨Or.inl rfl,
   claim_c1_analyzer_fallback_equivalence _ _ _ (Or.inl rfl),
   claim_c1_analyzer_fallback_equivalence _ _ _ (Or.inr ⟨"not json", rfl⟩)⟩

/-- C2 counterexample: the name field of the fallback record carries
the supplied name hint, which is not one of the fixed placeholder
values and varies with the hint — so not every field other than email
and phone is set to a fixed placeholder value. -/
theorem claim_c2_counterexample :
    (create_fallback_analysis "" "Jane Roe").lookup "name" =
      some (.str "Jane Roe") ∧
    "Jane Roe" ∉ placeholder_markers ∧
    (create_fallback_analysis "" "Jane Roe").lookup "name" ≠
      (create_fallback_analysis "" "John Smith").lookup "name" := by
  refine ⟨rfl, by decide, by decide⟩

/-- C2 amended: create_fallback_analysis is total — for every text and
name hint all eleven fields are present; email and phone carry the
matched token or the explicit not-found marker, the name field carries
the supplied name hint, and the remaining eight fields carry the fixed
placeholder values. -/
theorem claim_c2_fallback_total (cv_text candidate_name : String) :
    (∀ k, k ∈ eleven_fields →
      ((create_fallback_analysis cv_text candidate_name).lookup k).isSome = true) ∧
    (create_fallback_analysis cv_text candidate_name).lookup "name" =
      some (.str candidate_name) ∧
    (re_search_email cv_text.toList = none →
      (create_fallback_analysis cv_text candidate_name).lookup "email" =
        some (.str "Not found")) ∧
    (∀ m, re_search_email cv_text.toList = some m →
      (create_fallback_analysis cv_text candidate_name).lookup "email" =
        some (.str (String.mk m))) ∧
    (re_search_phone cv_text.toList = none →
      (create_fallback_analysis cv_text candidate_name).lookup "phone" =
        some (.str "Not found")) ∧
    (∀ m, re_search_phone cv_text.toList = some m →
      (create_fallback_analysis cv_text candidate_name).lookup "phone" =
        some (.str (String.mk m))) ∧
    (create_fallback_analysis cv_text candidate_name).lookup "location" =
      some (.str "Not extracted") ∧
    (create_fallback_analysis cv_text candidate_name).lookup "experience_years" =
      some (.str "Not determined") ∧
    (create_fallback_analysis cv_text candidate_name).lookup "current_role" =
      some (.str "Not extracted") ∧
    (create_fallback_analysis cv_text candidate_name).lookup "industry" =
      some (.str "Not determined") ∧
    (create_fallback_analysis cv_text candidate_name).lookup "education" =
      some (.str "Not extracted") ∧
    (create_fallback_analysis cv_text candidate_name).lookup "key_skills" =
      some (.list ["Analysis failed - manual review required"]) ∧
    (create_fallback_analysis cv_text candidate_name).lookup "previous_companies" =
      some (.list ["Not extracted"]) ∧
    (create_fallback_analysis cv_text candidate_name).lookup "summary" =
      some (.str "Automatic analysis failed. Manual review required.") := by
  refine ⟨?_, rfl, ?_, ?_, ?_, ?_, rfl, rfl, rfl, rfl, rfl, rfl, rfl, rfl⟩
  · intro k hk
    fin_cases hk <;> rfl
  · intro h
    rw [fallback_lookup_email, h]
  · intro m h
    rw [fallback_lookup_email, h]
  · intro h
    rw [fallback_lookup_phone, h]
  · intro m h
    rw [fallback_lookup_phone, h]

theorem claim_c2_witness :
    ("summary" ∈ eleven_fields ∧
      ((create_fallback_analysis "" "X").lookup "summary").isSome = true) ∧
    ((create_fallback_analysis "" "X").lookup "email" = some (.str "Not found")) ∧
    ((create_fallback_analysis "" "X").lookup "phone" = some (.str "Not found")) ∧
    ((create_fallback_analysis "mail a@b.co" "Y").lookup "email" =
      some (.str (String.mk "a@b.co".toList))) ∧
    ((create_fallback_analysis "tel 1234567" "Y").lookup "phone" =
      some (.str (String.mk "1234567".toList))) :=
  ⟨⟨by decide, (claim_c2_fallback_total "" "X").1 "summary" (by decide)⟩,
   (claim_c2_fallback_total "" "X").2.2.1 rfl,
   (claim_c2_fallback_total "" "X").2.2.2.2.1 rfl,
   (claim_c2_fallback_total "mail a@b.co" "Y").2.2.2.1 _ rfl,
   (claim_c2_fallback_total "tel 1234567" "Y").2.2.2.2.2.1 _ rfl⟩

/-- C9: for a parseable document the extractor returns the page-order
concatenation of the page texts with no separator, a zero-page document
yields the empty string, and an unparseable document yields the empty
string. -/
theorem claim_c9_extractor (f : UploadedFile) :
    (∀ pages, f.parsed = some pages →
      extract_text_from_pdf f = page_order_concat pages) ∧
    (f.parsed = some [] → extract_text_from_pdf f = "") ∧
    (f.parsed = none → extract_text_from_pdf f = "") := by
  refine ⟨?_, ?_, ?_⟩
  · intro pages h
    simp [extract_text_from_pdf, h, foldl_append_eq_concat]
  · intro h
    simp [extract_text_from_pdf, h]
  · intro h
    simp [extract_text_from_pdf, h]

theorem claim_c9_witness :
    extract_text_from_pdf ⟨"a.pdf", some ["page one ", "page two"], .apiError⟩ =
      page_order_concat ["page one ", "page two"] ∧
    extract_text_from_pdf ⟨"z.pdf", some [], .apiError⟩ = "" ∧
    extract_text_from_pdf ⟨"b.pdf", none, .apiError⟩ = "" :=
  ⟨(claim_c9_extractor _).1 _ rfl,
   (claim_c9_extractor _).2.1 rfl,
   (claim_c9_extractor _).2.2 rfl⟩

lemma main_batch_go (files : List UploadedFile) (acc : List CandidateRecord) :
    List.foldl
      (fun acc f =>
        let cv_text := extract_text_from_pdf f
        if cv_text ≠ "" then
          acc ++ [analyze_cv_with_groq f.outcome cv_text
            (derive_candidate_name f.name)]
        else acc)
      acc files =
    acc ++ (files.filter fun f => extract_text_from_pdf f != "").map record_of := by
  induction files generalizing acc with
  | nil => simp
  | cons f fs ih =>
    rw [List.foldl_cons, ih]
    by_cases h : extract_text_from_pdf f = ""
    · simp [h, List.filter_cons]
    · simp [h, List.filter_cons, record_of, bne_iff_ne]

lemma main_batch_eq (files : List UploadedFile) :
    main_batch files =
      (files.filter fun f => extract_text_from_pdf f != "").map record_of := by
  simpa [main_batch] using main_batch_go files []

/-- C3: the batch holds exactly one record per uploaded document with
nonempty extracted text, in upload order; empty-text documents are
skipped. In particular three documents with the second unreadable yield
two records, in upload order skipping the second. -/
theorem claim_c3_batch_invariant (files : List UploadedFile) :
    main_batch files =
      (files.filter fun f => extract_text_from_pdf f != "").map record_of ∧
    (∀ f1 f2 f3 : UploadedFile,
      extract_text_from_pdf f1 ≠ "" → extract_text_from_pdf f2 = "" →
      extract_text_from_pdf f3 ≠ "" →
      main_batch [f1, f2, f3] = [record_of f1, record_of f3]) := by
  refine ⟨main_batch_eq files, ?_⟩
  intro f1 f2 f3 h1 h2 h3
  rw [main_batch_eq]
  simp [List.filter_cons, h1, h2, h3]

theorem claim_c3_witness :
    extract_text_from_pdf ⟨"a.pdf", some ["text a"], .apiError⟩ ≠ "" ∧
    extract_text_from_pdf ⟨"b.pdf", none, .apiError⟩ = "" ∧
    extract_text_from_pdf ⟨"c.pdf", some ["text c"], .apiError⟩ ≠ "" ∧
    main_batch
      [⟨"a.pdf", some ["text a"], .apiError⟩,
       ⟨"b.pdf", none, .apiError⟩,
       ⟨"c.pdf", some ["text c"], .apiError⟩] =
      [record_of ⟨"a.pdf", some ["text a"], .apiError⟩,
       record_of ⟨"c.pdf", some ["text c"], .apiError⟩] :=
  ⟨by decide, rfl, by decide,
   (claim_c3_batch_invariant []).2 _ _ _ (by decide) rfl (by decide)⟩

/-- C5 counterexample: with experience_years the digit string 12 — not a
plain integer — the suffix is appended; with the plain integer minus
three the value is rendered verbatim with no suffix. -/
theorem claim_c5_counterexample :
    experience_cell [("experience_years", Value.str "12")] = .str "12 years" ∧
    is_plain_int
      (pyGet [("experience_years", Value.str "12")] "experience_years"
        (.str "N/A")) = false ∧
    experience_cell [("experience_years", Value.int (-3))] = .int (-3) ∧
    is_plain_int
      (pyGet [("experience_years", Value.int (-3))] "experience_years"
        (.str "N/A")) = true := by
  refine ⟨rfl, rfl, rfl, rfl⟩

/-- C5 amended: the experience value is rendered with the year suffix
exactly when its Python string form is a nonempty digit string, and
verbatim otherwise; an absent key renders as N/A. -/
theorem claim_c5_amended (candidate : CandidateRecord) :
    (∀ v, candidate.lookup "experience_years" = some v →
      (pyIsDigit (pyStr v) = true →
        experience_cell candidate = .str (pyStr v ++ " years")) ∧
      (pyIsDigit (pyStr v) = false → experience_cell candidate = v)) ∧
    (candidate.lookup "experience_years" = none →
      experience_cell candidate = .str "N/A") := by
  constructor
  · intro v hv
    constructor <;> intro hd <;> simp [experience_cell, pyGet, hv, hd]
  · intro hv
    simp [experience_cell, pyGet, hv, pyIsDigit, pyStr]
    decide

theorem claim_c5_witness :
    (pyIsDigit (pyStr (Value.str "12")) = true ∧
      experience_cell [("experience_years", Value.str "12")] =
        .str (pyStr (Value.str "12") ++ " years")) ∧
    (pyIsDigit (pyStr (Value.int (-3))) = false ∧
      experience_cell [("experience_years", Value.int (-3))] = Value.int (-3)) ∧
    experience_cell [("name", Value.str "A")] = .str "N/A" :=
  ⟨⟨rfl, ((claim_c5_amended [("experience_years", Value.str "12")]).1
      (Value.str "12") rfl).1 rfl⟩,
   ⟨rfl, ((claim_c5_amended [("experience_years", Value.int (-3))]).1
      (Value.int (-3)) rfl).2 rfl⟩,
   (claim_c5_amended [("name", Value.str "A")]).2 rfl⟩

/-- C6 counterexample: on the fallback record of the empty text the
details table has no Summary label and the summary value appears in no
cell of the table, so the table does not enumerate all eleven fields. -/
theorem claim_c6_counterexample :
    ((candidate_details (create_fallback_analysis "" "X")).all fun row =>
      row.all fun cell =>
        cell != Value.str "Automatic analysis failed. Manual review required.") =
      true ∧
    Value.str "Summary" ∉
      table_labels (candidate_details (create_fallback_analysis "" "X")) ∧
    (create_fallback_analysis "" "X").lookup "summary" =
      some (.str "Automatic analysis failed. Manual review required.") := by
  refine ⟨by decide, by decide, rfl⟩

/-- C6 amended: the per-candidate table enumerates ten of the eleven
fields — all except summary — in two columns, with the list-valued
fields comma-joined; the summary field is rendered as a separate
paragraph of the same section. -/
theorem claim_c6_amended (candidate : CandidateRecord) (i : Nat) :
    table_labels (candidate_details candidate) =
      [.str "Field", .str "Name", .str "Email", .str "Phone", .str "Location",
       .str "Experience", .str "Current Role", .str "Industry",
       .str "Education", .str "Key Skills", .str "Previous Companies"] ∧
    (∀ l, candidate.lookup "key_skills" = some (.list l) → l ≠ [] →
      key_skills_cell candidate = .str (String.intercalate ", " l)) ∧
    (∀ l, candidate.lookup "previous_companies" = some (.list l) → l ≠ [] →
      previous_companies_cell candidate = .str (String.intercalate ", " l)) ∧
    (∀ s, candidate.lookup "summary" = some (.str s) →
      StoryElem.para .normal ("<b>Professional Summary:</b><br/>" ++ s) ∈
        candidate_section i candidate) := by
  refine ⟨rfl, ?_, ?_, ?_⟩
  · intro l hl hne
    simp [key_skills_cell, hl, pyTruthy, pyJoin, hne]
  · intro l hl hne
    simp [previous_companies_cell, hl, pyTruthy, pyJoin, hne]
  · intro s hs
    simp [candidate_section, pyGet, hs, pyStr]

theorem claim_c6_witness :
    table_labels (candidate_details (create_fallback_analysis "" "W")) =
      [.str "Field", .str "Name", .str "Email", .str "Phone", .str "Location",
       .str "Experience", .str "Current Role", .str "Industry",
       .str "Education", .str "Key Skills", .str "Previous Companies"] ∧
    key_skills_cell (create_fallback_analysis "" "W") =
      .str (String.intercalate ", " ["Analysis failed - manual review required"]) ∧
    previous_companies_cell (create_fallback_analysis "" "W") =
      .str (String.intercalate ", " ["Not extracted"]) ∧
    StoryElem.para .normal
      ("<b>Professional Summary:</b><br/>" ++
        "Automatic analysis failed. Manual review required.") ∈
      candidate_section 1 (create_fallback_analysis "" "W") :=
  ⟨(claim_c6_amended (create_fallback_analysis "" "W") 1).1,
   (claim_c6_amended (create_fallback_analysis "" "W") 1).2.1 _ rfl (by decide),
   (claim_c6_amended (create_fallback_analysis "" "W") 1).2.2.1 _ rfl (by decide),
   (claim_c6_amended (create_fallback_analysis "" "W") 1).2.2.2 _ rfl⟩

lemma section_headers_append (s t : List StoryElem) :
    section_headers (s ++ t) = section_headers s ++ section_headers t := by
  simp [section_headers]

lemma section_headers_candidate_section (i : Nat) (c : CandidateRecord) :
    section_headers (candidate_section i c) = [header_text i c] := rfl

lemma build_sections_headers (l : List CandidateRecord) :
    ∀ k, section_headers (build_sections k l) = headers_from k l := by
  induction l with
  | nil => intro k; rfl
  | cons c rest ih =>
    intro k
    rw [build_sections, section_headers_append,
      section_headers_candidate_section, ih, headers_from]
    rfl

lemma headers_from_length (l : List CandidateRecord) :
    ∀ k, (headers_from k l).length = l.length := by
  induction l with
  | nil => intro k; rfl
  | cons c rest ih => intro k; simp [headers_from, ih]

lemma headers_from_get (l : List CandidateRecord) :
    ∀ k i (hi : i < l.length),
      (headers_from k l)[i]? = some (header_text (k + i) (l.get ⟨i, hi⟩)) := by
  induction l with
  | nil => intro k i hi; simp at hi
  | cons c rest ih =>
    intro k i hi
    cases i with
    | zero => simp [headers_from]
    | succ j =>
      have hj : j < rest.length := by simpa using hi
      have e : k + 1 + j = k + (j + 1) := by omega
      simp [headers_from, ih (k + 1) j hj, e]

lemma report_story_headers (now : String) (batch : List CandidateRecord) :
    section_headers (report_story now batch) = headers_from 1 batch := by
  simp only [report_story]
  rw [section_headers_append, build_sections_headers]
  rfl

/-- C7: the report has exactly one heading per batch element, the
headings appear in batch order with no sorting, filtering or
deduplication, and the heading at position i displays the name field of
the record at position i. -/
theorem claim_c7_sections (now : String) (batch : List CandidateRecord) :
    (section_headers (report_story now batch)).length = batch.length ∧
    (∀ i (hi : i < batch.length) (n : String),
      (batch.get ⟨i, hi⟩).lookup "name" = some (.str n) →
      (section_headers (report_story now batch))[i]? =
        some ("Candidate " ++ toString (i + 1) ++ ": " ++ n)) := by
  constructor
  · rw [report_story_headers, headers_from_length]
  · intro i hi n hn
    rw [report_story_headers, headers_from_get batch 1 i hi]
    have e : 1 + i = i + 1 := Nat.add_comm 1 i
    rw [e, header_text, pyGet, hn]
    rfl

theorem claim_c7_witness :
    (section_headers
      (report_story "2026-10-12 00:00:00"
        [[("name", Value.str "Alice")], [("name", Value.str "Bob")]])).length =
      ([[("name", Value.str "Alice")], [("name", Value.str "Bob")]] :
        List CandidateRecord).length ∧
    (section_headers
      (report_story "2026-10-12 00:00:00"
        [[("name", Value.str "Alice")], [("name", Value.str "Bob")]]))[1]? =
      some ("Candidate " ++ toString (1 + 1) ++ ": " ++ "Bob") :=
  ⟨(claim_c7_sections _ _).1,
   (claim_c7_sections "2026-10-12 00:00:00"
      [[("name", Value.str "Alice")], [("name", Value.str "Bob")]]).2
      1 (by decide) "Bob" rfl⟩

/-- C8 counterexample: on a document whose text holds only the email
token, with the analysis call failing, the record maps email to the
token but maps name to the supplied name hint, which is not one of the
placeholder markers — so not every field other than email is a
placeholder marker. -/
theorem claim_c8_counterexample :
    (analyze_cv_with_groq .apiError "Contact: j.doe@example.com"
        "John Doe").lookup "email" = some (.str "j.doe@example.com") ∧
    (analyze_cv_with_groq .apiError "Contact: j.doe@example.com"
        "John Doe").lookup "name" = some (.str "John Doe") ∧
    "John Doe" ∉ placeholder_markers := by
  refine ⟨rfl, rfl, by decide⟩

/-- C8 amended: for a document whose extracted text yields the email
match j.doe@example.com and no phone match, under a forced analysis
failure the record maps email to j.doe@example.com, name to the name
hint, and every remaining field to a placeholder marker. -/
theorem claim_c8_amended (cv_text candidate_name : String)
    (hemail : re_search_email cv_text.toList = some "j.doe@example.com".toList)
    (hphone : re_search_phone cv_text.toList = none) :
    analyze_cv_with_groq .apiError cv_text candidate_name =
      [("name", .str candidate_name),
       ("email", .str "j.doe@example.com"),
       ("phone", .str "Not found"),
       ("location", .str "Not extracted"),
       ("experience_years", .str "Not determined"),
       ("current_role", .str "Not extracted"),
       ("industry", .str "Not determined"),
       ("education", .str "Not extracted"),
       ("key_skills", .list ["Analysis failed - manual review required"]),
       ("previous_companies", .list ["Not extracted"]),
       ("summary", .str "Automatic analysis failed. Manual review required.")] := by
  simp only [analyze_cv_with_groq, create_fallback_analysis, hemail, hphone]
  rfl

theorem claim_c8_witness :
    re_search_email "Contact: j.doe@example.com".toList =
      some "j.doe@example.com".toList ∧
    re_search_phone "Contact: j.doe@example.com".toList = none ∧
    analyze_cv_with_groq .apiError "Contact: j.doe@example.com" "John Doe" =
      [("name", .str "John Doe"),
       ("email", .str "j.doe@example.com"),
       ("phone", .str "Not found"),
       ("location", .str "Not extracted"),
       ("experience_years", .str "Not determined"),
       ("current_role", .str "Not extracted"),
       ("industry", .str "Not determined"),
       ("education", .str "Not extracted"),
       ("key_skills", .list ["Analysis failed - manual review required"]),
       ("previous_companies", .list ["Not extracted"]),
       ("summary", .str "Automatic analysis failed. Manual review required.")] :=
  ⟨rfl, rfl, claim_c8_amended "Contact: j.doe@example.com" "John Doe" rfl rfl⟩

lemma take_takeWhile_append (p : Char → Bool) (s : List Char) (k : Nat) :
    ∃ rest, s = (s.takeWhile p).take k ++ rest :=
  ⟨(s.takeWhile p).drop k ++ s.dropWhile p, by
    rw [← List.append_assoc, List.take_append_drop,
      List.takeWhile_append_dropWhile]⟩

lemma takeWhile_ge_of_all (p : Char → Bool) :
    ∀ (ds r : List Char), (∀ c ∈ ds, p c) →
      ds.length ≤ ((ds ++ r).takeWhile p).length := by
  intro ds
  induction ds with
  | nil => intro r h; simp
  | cons d t ih =>
    intro r h
    rw [List.cons_append,
      List.takeWhile_cons_of_pos (h d (List.mem_cons_self d t))]
    have := ih r (fun c hc => h c (List.mem_cons_of_mem d hc))
    simpa using this

lemma isDigit_of_nonZero {c : Char} (h : isNonZeroDigit c = true) :
    c.isDigit = true := by
  simp only [isNonZeroDigit, Bool.and_eq_true, decide_eq_true_eq] at h
  obtain ⟨h1, h2⟩ := h
  simp only [Char.isDigit, Bool.and_eq_true, decide_eq_true_eq]
  refine ⟨?_, h2⟩
  show (48 : UInt32) ≤ c.val
  rw [UInt32.le_def, BitVec.le_def]
  rw [Char.le_def, UInt32.le_def, BitVec.le_def] at h1
  exact Nat.le_trans (by decide) h1

lemma digit_ne_plus {c : Char} (hc : c.isDigit = true) : c ≠ '+' := by
  intro e
  subst e
  exact absurd hc (by decide)

lemma tryDigits_some (s m : List Char) (h : tryDigits s = some m) :
    (∃ rest, s = m ++ rest) ∧
    ((∃ ds, digitsOK ds ∧ m = ds) ∨
     (∃ c ds, isNonZeroDigit c ∧ digitsOK ds ∧ m = c :: ds)) := by
  simp only [tryDigits] at h
  split_ifs at h with h1 h2
  · obtain ⟨hnz, hlen⟩ := h1
    injection h with h
    subst h
    refine ⟨take_takeWhile_append Char.isDigit s 16, ?_⟩
    cases hrun : s.takeWhile Char.isDigit with
    | nil => rw [hrun] at hlen; simp at hlen
    | cons c tl =>
      rw [hrun] at hnz hlen
      have ht : List.take 16 (c :: tl) = c :: List.take 15 tl := rfl
      rw [ht]
      refine Or.inr ⟨c, tl.take 15, by simpa [headNonZero] using hnz,
        ⟨?_, ?_, ?_⟩, rfl⟩
      · intro x hx
        have hx2 : x ∈ s.takeWhile Char.isDigit := by
          rw [hrun]
          exact List.mem_cons_of_mem c (List.mem_of_mem_take hx)
        exact List.mem_takeWhile_imp hx2
      · simp only [List.length_take]
        simp only [List.length_cons] at hlen
        omega
      · simp only [List.length_take]
        omega
  · injection h with h
    subst h
    refine ⟨take_takeWhile_append Char.isDigit s 15, ?_⟩
    refine Or.inl ⟨(s.takeWhile Char.isDigit).take 15, ⟨?_, ?_, ?_⟩, rfl⟩
    · intro x hx
      exact List.mem_takeWhile_imp (List.mem_of_mem_take hx)
    · simp only [List.length_take]
      omega
    · simp only [List.length_take]
      omega

lemma tryDigits_none (s : List Char) (h : tryDigits s = none) :
    (s.takeWhile Char.isDigit).length < 7 := by
  simp only [tryDigits] at h
  split_ifs at h with h1 h2
  omega

lemma tryPhone_some (s m : List Char) (h : tryPhone s = some m) :
    (∃ rest, s = m ++ rest) ∧ phoneShape m := by
  unfold tryPhone at h
  split_ifs at h with hp
  · cases hd : tryDigits s.tail with
    | none => rw [hd] at h; cases h
    | some d =>
      rw [hd] at h
      injection h with h
      subst h
      obtain ⟨⟨rest, hrest⟩, hsh⟩ := tryDigits_some _ _ hd
      obtain ⟨c, t, rfl⟩ : ∃ c t, s = c :: t := by
        cases s with
        | nil => simp at hp
        | cons c t => exact ⟨c, t, rfl⟩
      have hc : c = '+' := by simpa using hp
      subst hc
      simp only [List.tail_cons] at hrest
      constructor
      · exact ⟨rest, by simp [hrest]⟩
      · rcases hsh with ⟨ds, hds, hm⟩ | ⟨c0, ds, hnz, hds, hm⟩ <;> subst hm
        · exact Or.inr (Or.inr (Or.inl ⟨d, hds, rfl⟩))
        · exact Or.inr (Or.inr (Or.inr ⟨c0, ds, hnz, hds, rfl⟩))
  · obtain ⟨pre, hsh⟩ := tryDigits_some _ _ h
    refine ⟨pre, ?_⟩
    rcases hsh with ⟨ds, hds, hm⟩ | ⟨c0, ds, hnz, hds, hm⟩ <;> subst hm
    · exact Or.inl ⟨m, hds, rfl⟩
    · exact Or.inr (Or.inl ⟨c0, ds, hnz, hds, rfl⟩)

lemma tryPhone_none (s : List Char) (h : tryPhone s = none) :
    ∀ m rest, s = m ++ rest → ¬ phoneShape m := by
  intro m rest hs hsh
  unfold tryPhone at h
  split_ifs at h with hp
  · have hd : tryDigits s.tail = none := by
      cases hd : tryDigits s.tail with
      | none => rfl
      | some d => simp [hd] at h
    have hlt := tryDigits_none _ hd
    rcases hsh with ⟨ds, hds, hm⟩ | ⟨c0, ds, hnz, hds, hm⟩ |
      ⟨ds, hds, hm⟩ | ⟨c0, ds, hnz, hds, hm⟩ <;> subst hm
    · obtain ⟨hdig, hlen7, hlen15⟩ := hds
      cases m with
      | nil => simp at hlen7
      | cons d ds' =>
        rw [hs] at hp
        simp only [List.cons_append, List.head?_cons, Option.some.injEq] at hp
        exact digit_ne_plus (hdig d (List.mem_cons_self d ds')) hp
    · rw [hs] at hp
      simp only [List.cons_append, List.head?_cons, Option.some.injEq] at hp
      exact digit_ne_plus (isDigit_of_nonZero hnz) hp
    · obtain ⟨hdig, hlen7, hlen15⟩ := hds
      rw [hs] at hlt
      simp only [List.cons_append, List.tail_cons] at hlt
      have hge := takeWhile_ge_of_all Char.isDigit ds rest hdig
      omega
    · obtain ⟨hdig, hlen7, hlen15⟩ := hds
      rw [hs] at hlt
      simp only [List.cons_append, List.tail_cons] at hlt
      have hge : (c0 :: ds).length ≤
          (((c0 :: ds) ++ rest).takeWhile Char.isDigit).length := by
        refine takeWhile_ge_of_all Char.isDigit (c0 :: ds) rest ?_
        intro x hx
        rcases List.mem_cons.mp hx with rfl | hx
        · exact isDigit_of_nonZero hnz
        · exact hdig x hx
      simp only [List.cons_append, List.length_cons] at hge
      omega
  · have hlt := tryDigits_none _ h
    rcases hsh with ⟨ds, hds, hm⟩ | ⟨c0, ds, hnz, hds, hm⟩ |
      ⟨ds, hds, hm⟩ | ⟨c0, ds, hnz, hds, hm⟩ <;> subst hm
    · obtain ⟨hdig, hlen7, hlen15⟩ := hds
      rw [hs] at hlt
      have hge := takeWhile_ge_of_all Char.isDigit m rest hdig
      omega
    · obtain ⟨hdig, hlen7, hlen15⟩ := hds
      rw [hs] at hlt
      have hge : (c0 :: ds).length ≤
          (((c0 :: ds) ++ rest).takeWhile Char.isDigit).length := by
        refine takeWhile_ge_of_all Char.isDigit (c0 :: ds) rest ?_
        intro x hx
        rcases List.mem_cons.mp hx with rfl | hx
        · exact isDigit_of_nonZero hnz
        · exact hdig x hx
      simp only [List.cons_append, List.length_cons] at hge
      simp only [List.cons_append] at hlt
      omega
    · rw [hs] at hp
      simp at hp
    · rw [hs] at hp
      simp at hp

lemma re_search_phone_some (t : List Char) :
    ∀ m, re_search_phone t = some m →
      ∃ a b, t = a ++ m ++ b ∧ phoneShape m ∧
        ∀ a2 m2 b2, t = a2 ++ m2 ++ b2 → phoneShape m2 →
          a.length ≤ a2.length := by
  induction t with
  | nil => intro m h; cases h
  | cons c rest ih =>
    intro m h
    cases htp : tryPhone (c :: rest) with
    | some m1 =>
      simp only [re_search_phone, htp, Option.some.injEq] at h
      subst h
      obtain ⟨⟨r, hr⟩, hsh⟩ := tryPhone_some _ _ htp
      exact ⟨[], r, by simpa using hr, hsh, fun a2 m2 b2 _ _ => Nat.zero_le _⟩
    | none =>
      simp only [re_search_phone, htp] at h
      obtain ⟨a, b, hab, hsh, hmin⟩ := ih m h
      refine ⟨c :: a, b, by simp [hab], hsh, ?_⟩
      intro a2 m2 b2 ht2 hsh2
      cases a2 with
      | nil =>
        simp only [List.nil_append] at ht2
        exact absurd hsh2 (tryPhone_none _ htp m2 b2 ht2)
      | cons c2 a2t =>
        simp only [List.cons_append, List.cons.injEq] at ht2
        have := hmin a2t m2 b2 ht2.2 hsh2
        simp only [List.length_cons]
        omega

lemma re_search_phone_none (t : List Char) (h : re_search_phone t = none) :
    ∀ a m b, t = a ++ m ++ b → ¬ phoneShape m := by
  induction t with
  | nil =>
    intro a m b hab hsh
    have hm : m = [] := by
      have hl := congrArg List.length hab
      simp only [List.length_nil, List.length_append] at hl
      have : m.length = 0 := by omega
      exact List.eq_nil_of_length_eq_zero this
    subst hm
    rcases hsh with ⟨ds, hds, hm⟩ | ⟨c0, ds, hnz, hds, hm⟩ |
      ⟨ds, hds, hm⟩ | ⟨c0, ds, hnz, hds, hm⟩
    · have := hds.2.1
      rw [← hm] at this
      simp at this
    · cases hm
    · cases hm
    · cases hm
  | cons c rest ih =>
    intro a m b hab hsh
    cases htp : tryPhone (c :: rest) with
    | some m1 =>
      simp only [re_search_phone, htp] at h
      exact Option.noConfusion h
    | none =>
      simp only [re_search_phone, htp] at h
      cases a with
      | nil =>
        simp only [List.nil_append] at hab
        exact absurd hsh (tryPhone_none _ htp m b hab)
      | cons c2 a2t =>
        simp only [List.cons_append, List.cons.injEq] at hab
        exact ih h a2t m b hab.2 hsh

/-- C4: the phone field of the fallback record is the leftmost substring
of the text matching the loose digit-run shape — 7 to 15 digits with an
optional leading country-code marker — and is the not-found marker
exactly when no substring of the text matches the shape. -/
theorem claim_c4_phone_first_match (cv_text candidate_name : String) :
    (∀ m, re_search_phone cv_text.toList = some m →
      (create_fallback_analysis cv_text candidate_name).lookup "phone" =
        some (.str (String.mk m)) ∧
      ∃ a b, cv_text.toList = a ++ m ++ b ∧ phoneShape m ∧
        ∀ a2 m2 b2, cv_text.toList = a2 ++ m2 ++ b2 → phoneShape m2 →
          a.length ≤ a2.length) ∧
    (re_search_phone cv_text.toList = none →
      (create_fallback_analysis cv_text candidate_name).lookup "phone" =
        some (.str "Not found") ∧
      ∀ a m b, cv_text.toList = a ++ m ++ b → ¬ phoneShape m) := by
  constructor
  · intro m h
    refine ⟨?_, re_search_phone_some _ m h⟩
    rw [fallback_lookup_phone, h]
  · intro h
    refine ⟨?_, re_search_phone_none _ h⟩
    rw [fallback_lookup_phone, h]

theorem claim_c4_witness :
    (re_search_phone "call 1234567890".toList = some "1234567890".toList ∧
      ((create_fallback_analysis "call 1234567890" "N").lookup "phone" =
          some (.str (String.mk "1234567890".toList)) ∧
        ∃ a b, "call 1234567890".toList = a ++ "1234567890".toList ++ b ∧
          phoneShape "1234567890".toList ∧
          ∀ a2 m2 b2, "call 1234567890".toList = a2 ++ m2 ++ b2 →
            phoneShape m2 → a.length ≤ a2.length)) ∧
    (re_search_phone "no digits here".toList = none ∧
      ((create_fallback_analysis "no digits here" "N").lookup "phone" =
          some (.str "Not found") ∧
        ∀ a m b, "no digits here".toList = a ++ m ++ b → ¬ phoneShape m)) :=
  ⟨⟨rfl, (claim_c4_phone_first_match "call 1234567890" "N").1 _ rfl⟩,
   ⟨rfl, (claim_c4_phone_first_match "no digits here" "N").2 rfl⟩⟩

lemma phoneShape_chars {m : List Char} (h : phoneShape m) :
    ∀ c ∈ m, c = '+' ∨ c.isDigit = true := by
  intro c hc
  rcases h with ⟨ds, hds, hm⟩ | ⟨c0, ds, hnz, hds, hm⟩ |
    ⟨ds, hds, hm⟩ | ⟨c0, ds, hnz, hds, hm⟩
  · rw [hm] at hc
    exact Or.inr (hds.1 c hc)
  · rw [hm] at hc
    rcases List.mem_cons.mp hc with rfl | hc
    · exact Or.inr (isDigit_of_nonZero hnz)
    · exact Or.inr (hds.1 c hc)
  · rw [hm] at hc
    rcases List.mem_cons.mp hc with rfl | hc
    · exact Or.inl rfl
    · exact Or.inr (hds.1 c hc)
  · rw [hm] at hc
    rcases List.mem_cons.mp hc with rfl | hc
    · exact Or.inl rfl
    · rcases List.mem_cons.mp hc with rfl | hc
      · exact Or.inr (isDigit_of_nonZero hnz)
      · exact Or.inr (hds.1 c hc)

lemma phone_match_ne_notfound (t m : List Char)
    (h : re_search_phone t = some m) : String.mk m ≠ "Not found" := by
  intro he
  obtain ⟨a, b, hab, hsh, hmin⟩ := re_search_phone_some t m h
  have hm : m = "Not found".toList := congrArg String.toList he
  have hN : 'N' ∈ m := by rw [hm]; decide
  rcases phoneShape_chars hsh 'N' hN with h1 | h1
  · exact absurd h1 (by decide)
  · exact absurd h1 (by decide)

lemma findEmailAt_amp (prev : Option Char) (s m : List Char)
    (h : findEmailAt prev s = some m) : '@' ∈ m := by
  cases s with
  | nil => cases h
  | cons c rest =>
    simp only [findEmailAt] at h
    split_ifs at h with h1 h2
    cases hdrop : List.drop ((c :: rest).takeWhile isLocalChar).length
        (c :: rest) with
    | nil => rw [hdrop] at h; cases h
    | cons d r2 =>
      rw [hdrop] at h
      simp only at h
      split_ifs at h with hd
      cases htd : tryDomain r2 with
      | none => rw [htd] at h; simp only at h; cases h
      | some dm =>
        rw [htd] at h
        simp only [Option.some.injEq] at h
        rw [← h]
        simp

lemma re_search_email_aux_amp (s : List Char) :
    ∀ (prev : Option Char) (m : List Char),
      re_search_email_aux prev s = some m → '@' ∈ m := by
  induction s with
  | nil => intro prev m h; cases h
  | cons c rest ih =>
    intro prev m h
    cases hf : findEmailAt prev (c :: rest) with
    | some m1 =>
      simp only [re_search_email_aux, hf, Option.some.injEq] at h
      rw [← h]
      exact findEmailAt_amp _ _ _ hf
    | none =>
      simp only [re_search_email_aux, hf] at h
      exact ih (some c) m h

lemma email_match_ne_notfound (t m : List Char)
    (h : re_search_email t = some m) : String.mk m ≠ "Not found" := by
  intro he
  have hm : m = "Not found".toList := congrArg String.toList he
  have hA : '@' ∈ m := re_search_email_aux_amp t none m h
  rw [hm] at hA
  exact absurd hA (by decide)

/-- C10: only the first 4000 characters are transmitted to the analysis
service, but on a failed call the fallback runs over the full text: when
the transmitted excerpt holds no phone or email match while the full
text does, the failure-path record still carries the match and not the
not-found marker. -/
theorem claim_c10_full_text_fallback (cv_text candidate_name : String)
    (hlen : 4000 < cv_text.length) :
    (∀ m, re_search_phone (transmitted_excerpt cv_text) = none →
      re_search_phone cv_text.toList = some m →
      (analyze_cv_with_groq .apiError cv_text candidate_name).lookup "phone" =
        some (.str (String.mk m)) ∧ String.mk m ≠ "Not found") ∧
    (∀ m, re_search_email (transmitted_excerpt cv_text) = none →
      re_search_email cv_text.toList = some m →
      (analyze_cv_with_groq .apiError cv_text candidate_name).lookup "email" =
        some (.str (String.mk m)) ∧ String.mk m ≠ "Not found") := by
  constructor
  · intro m _ hm
    constructor
    · show (create_fallback_analysis cv_text candidate_name).lookup "phone" = _
      rw [fallback_lookup_phone, hm]
    · exact phone_match_ne_notfound _ _ hm
  · intro m _ hm
    constructor
    · show (create_fallback_analysis cv_text candidate_name).lookup "email" = _
      rw [fallback_lookup_email, hm]
    · exact email_match_ne_notfound _ _ hm

lemma phone_skip_space (x : List Char) :
    re_search_phone (' ' :: x) = re_search_phone x := by
  have htp : tryPhone (' ' :: x) = none := rfl
  simp only [re_search_phone, htp]

lemma phone_skip_spaces (n : Nat) (s : List Char) :
    re_search_phone (List.replicate n ' ' ++ s) = re_search_phone s := by
  induction n with
  | zero => rfl
  | succ k ih =>
    rw [List.replicate_succ, List.cons_append, phone_skip_space]
    exact ih

lemma email_skip_space (prev : Option Char) (x : List Char) :
    re_search_email_aux prev (' ' :: x) = re_search_email_aux (some ' ') x := by
  have hf : findEmailAt prev (' ' :: x) = none := rfl
  simp only [re_search_email_aux, hf]

lemma email_skip_spaces (n : Nat) (prev : Option Char) (s : List Char) :
    re_search_email_aux prev (List.replicate (n + 1) ' ' ++ s) =
      re_search_email_aux (some ' ') s := by
  induction n generalizing prev with
  | zero =>
    rw [List.replicate_succ]
    simp only [List.replicate, List.cons_append, List.nil_append]
    exact email_skip_space prev s
  | succ k ih =>
    rw [List.replicate_succ, List.cons_append, email_skip_space]
    exact ih (some ' ')

lemma phone_spaces_none (n : Nat) :
    re_search_phone (List.replicate n ' ') = none := by
  induction n with
  | zero => rfl
  | succ k ih =>
    rw [List.replicate_succ, phone_skip_space]
    exact ih

lemma email_spaces_none (n : Nat) :
    ∀ prev, re_search_email_aux prev (List.replicate n ' ') = none := by
  induction n with
  | zero => intro prev; rfl
  | succ k ih =>
    intro prev
    rw [List.replicate_succ, email_skip_space]
    exact ih (some ' ')

theorem claim_c10_witness :
    4000 < c10_text.length ∧
    re_search_phone (transmitted_excerpt c10_text) = none ∧
    re_search_email (transmitted_excerpt c10_text) = none ∧
    re_search_phone c10_text.toList = some "1234567".toList ∧
    re_search_email c10_text.toList = some "j.doe@example.com".toList ∧
    ((analyze_cv_with_groq .apiError c10_text "N").lookup "phone" =
        some (.str (String.mk "1234567".toList)) ∧
      String.mk "1234567".toList ≠ "Not found") ∧
    ((analyze_cv_with_groq .apiError c10_text "N").lookup "email" =
        some (.str (String.mk "j.doe@example.com".toList)) ∧
      String.mk "j.doe@example.com".toList ≠ "Not found") := by
  have htoList : c10_text.toList =
      List.replicate 4001 ' ' ++
        "tel 1234567 mail j.doe@example.com".toList := rfl
  have hlen : 4000 < c10_text.length := by
    have h1 : c10_text.length =
        (List.replicate 4001 ' ' ++
          "tel 1234567 mail j.doe@example.com".toList).length := rfl
    have h2 : ("tel 1234567 mail j.doe@example.com".toList).length = 34 := rfl
    rw [h1, List.length_append, List.length_replicate, h2]
    omega
  have hexc : transmitted_excerpt c10_text = List.replicate 4000 ' ' := by
    show c10_text.toList.take 4000 = _
    rw [htoList,
      List.take_append_of_le_length (by rw [List.length_replicate]; omega),
      List.take_replicate]
    norm_num
  have hpref_p : re_search_phone (transmitted_excerpt c10_text) = none := by
    rw [hexc]
    exact phone_spaces_none 4000
  have hpref_e : re_search_email (transmitted_excerpt c10_text) = none := by
    rw [hexc]
    exact email_spaces_none 4000 none
  have hfull_p : re_search_phone c10_text.toList = some "1234567".toList := by
    rw [htoList, phone_skip_spaces]
    rfl
  have hfull_e : re_search_email c10_text.toList =
      some "j.doe@example.com".toList := by
    show re_search_email_aux none c10_text.toList = _
    rw [htoList, show (4001 : Nat) = 4000 + 1 from rfl, email_skip_spaces]
    rfl
  refine ⟨hlen, hpref_p, hpref_e, hfull_p, hfull_e, ?_, ?_⟩
  · exact (claim_c10_full_text_fallback c10_text "N" hlen).1 _ hpref_p hfull_p
  · exact (claim_c10_full_text_fallback c10_text "N" hlen).2 _ hpref_e hfull_e
